import Mathlib

/-!
# Verification of the AgentricAI task-delegation core

A shallow embedding of the task-delegation engine
(`src/services/realTimeAgentSystem.ts`) and the knowledge store
(`src/services/knowledgeDatabase.ts`), with theorems settling the spec's
claims about them.

Conventions of the embedding:
* JavaScript `Map` iteration order is insertion order, so each `Map` is
  modelled as an association list (or a fixed record of lanes when the keys
  are the four priority strings inserted at construction).
* JavaScript numbers in the efficiency/confidence range are modelled as `ℚ`
  (the increments 0.01 and 0.05 and the clamps 0.1 / 1.0 are exact).
* The untyped `parameters` / `value` / `result` payloads are modelled as
  `String` (standing for their JSON serialisation).
* Asynchronous backend calls are modelled by an explicit outcome value
  (success rows / caught error / backend absent) passed to the function.
-/

namespace AgentricAI

/-- Task lifecycle status, from the `Task` class
(`'pending' | 'in-progress' | 'completed' | 'failed'`). -/
inductive TaskStatus where
  | pending
  | inProgress
  | completed
  | failed
deriving DecidableEq, Repr

/-- The `Task` class of `realTimeAgentSystem.ts` (lines 376-390).
`createdAt` is the construction timestamp; `parameters`, `result` and
`error` payloads are modelled as strings. -/
structure Task where
  id : String
  type : String
  parameters : String
  priority : String
  createdAt : Nat
  status : TaskStatus
  assignedAgent : Option String := none
  result : Option String := none
  errMsg : Option String := none
deriving DecidableEq, Repr

/-- The `TaskQueue` class (lines 392-421): a `Map` built with the four keys
`critical, high, medium, low` in that insertion order, each mapped to an
array of tasks.  Since the keys are fixed we model the map as a record of
four lanes. -/
structure TaskQueue where
  critical : List Task
  high : List Task
  medium : List Task
  low : List Task
deriving DecidableEq, Repr

/-- The freshly constructed queue: four empty lanes. -/
def TaskQueue.empty : TaskQueue := ⟨[], [], [], []⟩

/-- `enqueue(task)`: `this.queues.get(task.priority) || this.queues.get('medium')`
followed by `queue.push(task)` — append to the lane named by the task's
priority, defaulting to `medium` for an unknown priority string. -/
def TaskQueue.enqueue (q : TaskQueue) (t : Task) : TaskQueue :=
  if t.priority = "critical" then { q with critical := q.critical ++ [t] }
  else if t.priority = "high" then { q with high := q.high ++ [t] }
  else if t.priority = "medium" then { q with medium := q.medium ++ [t] }
  else if t.priority = "low" then { q with low := q.low ++ [t] }
  else { q with medium := q.medium ++ [t] }

/-- `dequeue()`: iterate the lanes in map insertion order
(critical, high, medium, low) and `shift()` the first non-empty one;
`null` when all lanes are empty. -/
def TaskQueue.dequeue (q : TaskQueue) : Option (Task × TaskQueue) :=
  match q.critical with
  | t :: ts => some (t, { q with critical := ts })
  | [] =>
    match q.high with
    | t :: ts => some (t, { q with high := ts })
    | [] =>
      match q.medium with
      | t :: ts => some (t, { q with medium := ts })
      | [] =>
        match q.low with
        | t :: ts => some (t, { q with low := ts })
        | [] => none

/-- `size()`: the sum of the lane lengths. -/
def TaskQueue.size (q : TaskQueue) : Nat :=
  q.critical.length + q.high.length + q.medium.length + q.low.length

/-- `hasWork()`: some lane is non-empty. -/
def TaskQueue.hasWork (q : TaskQueue) : Bool :=
  decide (0 < q.size)

/-- Repeated `dequeue()` calls, bounded by a fuel (the ticker dequeues one
task per tick; `drainFuel n q` is the list of tasks the first `n` ticks
return). -/
def TaskQueue.drainFuel : Nat → TaskQueue → List Task
  | 0, _ => []
  | n + 1, q =>
    match q.dequeue with
    | none => []
    | some (t, q') => t :: TaskQueue.drainFuel n q'

/-- All tasks returned by repeated `dequeue()` calls until the queue is
empty, in the order they are returned. -/
def TaskQueue.drain (q : TaskQueue) : List Task :=
  TaskQueue.drainFuel q.size q

/-- The lane `enqueue` routes a task to, as the lane's name. -/
def laneOf (t : Task) : String :=
  if t.priority = "critical" then "critical"
  else if t.priority = "high" then "high"
  else if t.priority = "medium" then "medium"
  else if t.priority = "low" then "low"
  else "medium"

/-- Agent lifecycle status, from the `AgentInstance` class
(`'initializing' | 'active' | 'processing' | 'idle' | 'error'`).
Note the union type has no `standby` member. -/
inductive AgentStatus where
  | initializing
  | active
  | processing
  | idle
  | error
deriving DecidableEq, Repr

/-- The `AgentInstance` class (lines 194-373): identity and config fields
from the constructor, `status` (initially `initializing`), the private
`taskHistory` (initially empty) and `efficiencyScore` (initially 1.0). -/
structure AgentInstance where
  id : String
  name : String
  type : String
  capabilities : List String
  specialization : String
  priority : String
  status : AgentStatus := .initializing
  taskHistory : List Task := []
  efficiencyScore : ℚ := 1
deriving DecidableEq, Repr

/-- Does the character list start with the pattern? -/
def listStartsWith : List Char → List Char → Bool
  | _, [] => true
  | [], _ :: _ => false
  | c :: cs, p :: ps => c == p && listStartsWith cs ps

/-- Does the pattern occur contiguously somewhere in the character list? -/
def listHasSub : List Char → List Char → Bool
  | [], pat => pat.isEmpty
  | c :: cs, pat => listStartsWith (c :: cs) pat || listHasSub cs pat

/-- JavaScript `s.includes(pat)`: `pat` occurs as a contiguous substring of
`s`. -/
def strIncludes (s pat : String) : Bool :=
  listHasSub s.toList pat.toList

/-- JavaScript `s.toLowerCase()` (ASCII range): lower-case every
character. -/
def strToLower (s : String) : String :=
  ⟨s.data.map Char.toLower⟩

/-- `canHandle(taskType)` (lines 242-246): some capability is a substring
of the task type or the task type is a substring of the capability. -/
def AgentInstance.canHandle (a : AgentInstance) (taskType : String) : Bool :=
  a.capabilities.any fun cap => strIncludes taskType cap || strIncludes cap taskType

/-- The scalar efficiency update of `updateEfficiency(success)`
(lines 360-366): success adds 0.01 clamped at 1.0, failure subtracts 0.05
clamped at 0.1. -/
def updateEfficiencyScore (e : ℚ) (success : Bool) : ℚ :=
  if success then min 1 (e + 1/100) else max (1/10) (e - 1/20)

/-- `updateEfficiency(success)` applied to the instance. -/
def AgentInstance.updateEfficiency (a : AgentInstance) (success : Bool) : AgentInstance :=
  { a with efficiencyScore := updateEfficiencyScore a.efficiencyScore success }

/-- The efficiency score after a sequence of task outcomes, starting from
the initial field value 1.0. -/
def efficiencyAfter (outcomes : List Bool) : ℚ :=
  outcomes.foldl updateEfficiencyScore 1

/-- Insertion step of a stable descending sort by efficiency score: an
element passes over exactly the elements with strictly greater score, so
ties keep their original relative order (JavaScript `Array.prototype.sort`
is stable). -/
def insertByEff (a : AgentInstance) : List AgentInstance → List AgentInstance
  | [] => [a]
  | b :: rest =>
    if a.efficiencyScore < b.efficiencyScore then b :: insertByEff a rest
    else a :: b :: rest

/-- The candidate ranking `sort((a, b) => b.getEfficiencyScore() - a.getEfficiencyScore())`
(line 132): stable sort, efficiency descending. -/
def sortByEffDesc : List AgentInstance → List AgentInstance
  | [] => []
  | a :: rest => insertByEff a (sortByEffDesc rest)

/-- `findBestAgent(taskType)` (lines 129-135): filter the registered agents
(in `Map` insertion order, i.e. registration order) by `canHandle`, sort by
efficiency descending, take the first candidate or `null`. -/
def findBestAgent (agents : List AgentInstance) (taskType : String) : Option AgentInstance :=
  (sortByEffDesc (agents.filter fun a => a.canHandle taskType)).head?

/-- The mutable state of `RealTimeAgentSystem` relevant to delegation:
`activeAgents` (a `Map` in registration order, modelled as a list with
distinct ids) and the task queue. -/
structure RealTimeAgentSystem where
  activeAgents : List AgentInstance
  taskQueue : TaskQueue
deriving DecidableEq, Repr

/-- `delegateTask(taskType, parameters, priority)` (lines 106-127).
`freshId` stands for the generated `task-$\x7bDate.now()\x7d-$\x7brandom\x7d`
id and `now` for `Date.now()`.  On `findBestAgent` returning `null` the
method throws before `enqueue`, so the state is returned unchanged together
with the error; otherwise the task is bound to the chosen agent's id,
enqueued, and its id returned. -/
def delegateTask (s : RealTimeAgentSystem) (freshId : String) (now : Nat)
    (taskType : String) (parameters : String) (priority : String) :
    Except String String × RealTimeAgentSystem :=
  let task : Task :=
    { id := freshId, type := taskType, parameters := parameters,
      priority := priority, createdAt := now, status := .pending }
  match findBestAgent s.activeAgents taskType with
  | none => (Except.error ("No suitable agent found for task type: " ++ taskType), s)
  | some agent =>
    let task := { task with assignedAgent := some agent.id }
    (Except.ok task.id, { s with taskQueue := s.taskQueue.enqueue task })

/-! ## Knowledge store (`knowledgeDatabase.ts`) -/

/-- A knowledge entry as built by `storeKnowledge` (lines 388-402).
`value` stands for the JSON serialisation of the stored payload;
`relationships` is the `relationType -> targets` map. -/
structure KnowledgeEntry where
  id : String
  category : String
  key : String
  value : String
  confidence_score : ℚ
  source_agent : String
  created_at : Nat
  updated_at : Nat
  access_count : Nat
  tags : List String
  relationships : List (String × List String)
deriving DecidableEq, Repr

/-- An access-log entry as built by `logKnowledgeAccess` (lines 788-794);
`context` stands for the serialised context object. -/
structure LogEntry where
  agent_id : String
  knowledge_key : String
  access_type : String
  timestamp : Nat
  context : String
deriving DecidableEq, Repr

/-- The in-process state of `AgentricAIKnowledgeDatabase` the claims are
about: the `localKnowledge` map (association list in insertion order) and
the in-memory `accessLog`. -/
structure KnowledgeDB where
  localKnowledge : List (String × KnowledgeEntry)
  accessLog : List LogEntry
deriving DecidableEq, Repr

/-- JavaScript `Map.prototype.get`. -/
def mapGet (m : List (String × KnowledgeEntry)) (k : String) : Option KnowledgeEntry :=
  (m.find? fun p => p.1 == k).map (·.2)

/-- JavaScript `Map.prototype.set`: replace the binding in place when the
key is present (keeping its position), append otherwise.  A `Map` never
holds a key twice, so replacing the first occurrence is the same as
replacing the occurrence. -/
def mapSet : List (String × KnowledgeEntry) → String → KnowledgeEntry →
    List (String × KnowledgeEntry)
  | [], k, v => [(k, v)]
  | p :: rest, k, v => if p.1 == k then (k, v) :: rest else p :: mapSet rest k v

/-- `extractTags` (lines 767-785) on a string value: split on whitespace,
keep words longer than 3 characters, take the first 5, de-duplicate keeping
first occurrences. -/
def extractTags (value : String) : List String :=
  ((((value.splitOn " ").filter fun w => 3 < w.length).take 5)).dedup

/-- `findRelationships` (lines 745-764) on a string value: only the
category-based relationship applies. -/
def findRelationships (category : String) (_key : String) (_value : String) :
    List (String × List String) :=
  [("category_peers", [category])]

/-- `logKnowledgeAccess` (lines 787-812): append the entry, then keep only
the most recent 1000 entries; the remote mirror of the log is fire-and-forget
and does not affect this state. -/
def logKnowledgeAccess (log : List LogEntry)
    (agentId knowledgeKey accessType : String) (now : Nat) (context : String) :
    List LogEntry :=
  let log := log ++ [⟨agentId, knowledgeKey, accessType, now, context⟩]
  if 1000 < log.length then log.drop (log.length - 1000) else log

/-- Outcome of the primary-backend write attempted by `storeKnowledge`:
the backend is absent (local-only mode), the upsert threw (caught), or it
succeeded. -/
inductive BackendWrite where
  | absent
  | failed
  | ok
deriving DecidableEq, Repr

/-- `storeKnowledge(category, key, value, sourceAgent?, confidence = 1.0)`
(lines 388-430): build the entry (id `category:key`, access count 0,
derived tags and relationships); write it to the primary backend, falling
back to the local map when the backend is absent or the write throws; log
the store unless the raw `sourceAgent` argument is `'system-init'`.
The knowledge-graph update touches only the private graph, which no claim
mentions, so it is not part of the modelled state. -/
def storeKnowledge (db : KnowledgeDB) (backend : BackendWrite)
    (category key value : String) (sourceAgent : Option String)
    (confidence : ℚ) (now : Nat) : String × KnowledgeDB :=
  let knowledgeId := category ++ ":" ++ key
  let entry : KnowledgeEntry :=
    { id := knowledgeId, category := category, key := key, value := value,
      confidence_score := confidence, source_agent := sourceAgent.getD "system",
      created_at := now, updated_at := now, access_count := 0,
      tags := extractTags value,
      relationships := findRelationships category key value }
  let localKnowledge :=
    match backend with
    | .ok => db.localKnowledge
    | .failed => mapSet db.localKnowledge knowledgeId entry
    | .absent => mapSet db.localKnowledge knowledgeId entry
  let accessLog :=
    if sourceAgent = some "system-init" then db.accessLog
    else
      logKnowledgeAccess db.accessLog (sourceAgent.getD "system") knowledgeId
        "store" now (toString confidence)
  (knowledgeId, { localKnowledge := localKnowledge, accessLog := accessLog })

/-- Outcome of the primary-backend `.single()` read attempted by
`retrieveKnowledge`: backend absent, read threw (caught), row not found, or
a row was returned. -/
inductive PrimaryRead where
  | absent
  | errored
  | missing
  | found (row : KnowledgeEntry)
deriving DecidableEq, Repr

/-- JavaScript `knowledge?.value || null`: the empty string is falsy, any
other string is returned as the value. -/
def jsValueOrNull (v : String) : Option String :=
  if v = "" then none else some v

/-- `retrieveKnowledge(category, key, requestingAgent?)` (lines 432-478):
try the primary backend; on a primary hit the value is served remotely
(remote access-count bump, local map untouched).  When the primary yielded
nothing, look up the local map; a local hit increments the entry's access
count in place.  A retrieval is logged only when an entry was found; a miss
returns `null` with no state change. -/
def retrieveKnowledge (db : KnowledgeDB) (primary : PrimaryRead)
    (category key : String) (requestingAgent : Option String) (now : Nat) :
    Option String × KnowledgeDB :=
  let knowledgeId := category ++ ":" ++ key
  match primary with
  | .found row =>
    let log := logKnowledgeAccess db.accessLog (requestingAgent.getD "unknown")
      knowledgeId "retrieve" now (toString row.confidence_score)
    (jsValueOrNull row.value, { db with accessLog := log })
  | _ =>
    match mapGet db.localKnowledge knowledgeId with
    | some entry =>
      let entry' := { entry with access_count := entry.access_count + 1 }
      let localKnowledge := mapSet db.localKnowledge knowledgeId entry'
      let log := logKnowledgeAccess db.accessLog (requestingAgent.getD "unknown")
        knowledgeId "retrieve" now (toString entry'.confidence_score)
      (jsValueOrNull entry'.value, { localKnowledge := localKnowledge, accessLog := log })
    | none => (none, db)

/-- Outcome of the primary-backend search attempted by `queryKnowledge`:
backend absent, search threw (caught), or it returned rows (already
confidence-ordered and limited to 10 by the backend query). -/
inductive PrimarySearch where
  | absent
  | errored
  | ok (rows : List KnowledgeEntry)
deriving DecidableEq, Repr

/-- Insertion step of a stable descending sort of entries by confidence
score (the local-search `sort((a, b) => b.confidence_score - a.confidence_score)`). -/
def insertByConf (a : KnowledgeEntry) : List KnowledgeEntry → List KnowledgeEntry
  | [] => [a]
  | b :: rest =>
    if a.confidence_score < b.confidence_score then b :: insertByConf a rest
    else a :: b :: rest

/-- Stable descending sort of entries by confidence score. -/
def sortByConfDesc : List KnowledgeEntry → List KnowledgeEntry
  | [] => []
  | a :: rest => insertByConf a (sortByConfDesc rest)

/-- The local-search match predicate of `queryKnowledge` (lines 502-507):
the lower-cased key, or the lower-cased serialised value, contains the
lower-cased query. -/
def localQueryMatch (query : String) (e : KnowledgeEntry) : Bool :=
  strIncludes (strToLower e.key) (strToLower query)
    || strIncludes (strToLower e.value) (strToLower query)

/-- `queryKnowledge(query, requestingAgent?)` (lines 480-517): collect the
primary backend's rows (none when it is absent or threw); when that left
`results` empty — including a successful primary search with zero rows —
scan the local map for matches and sort them by confidence descending; log
the query with the result count; return the first 10 results. -/
def queryKnowledge (db : KnowledgeDB) (primary : PrimarySearch)
    (query : String) (requestingAgent : Option String) (now : Nat) :
    List KnowledgeEntry × KnowledgeDB :=
  let results : List KnowledgeEntry :=
    match primary with
    | .ok rows => rows
    | _ => []
  let results :=
    if results.length = 0 then
      sortByConfDesc ((db.localKnowledge.map (·.2)).filter (localQueryMatch query))
    else results
  let log := logKnowledgeAccess db.accessLog (requestingAgent.getD "unknown")
    ("query:" ++ query) "query" now (toString results.length)
  (results.take 10, { db with accessLog := log })

/-! ## Execution ticker (`processTask`) -/

/-- Outcome of `performTaskExecution` (simulated handler work): the value
it resolves with, or the error it rejects with. -/
inductive ExecOutcome where
  | success (result : String)
  | failure (err : String)
deriving DecidableEq, Repr

/-- `executeTask(task)` (lines 248-266): set status to `processing`; on
success bump efficiency up, push the task into the history, return to
`active` and resolve with the result; on failure bump efficiency down, set
status `error` and re-throw. -/
def executeTask (a : AgentInstance) (task : Task) (outcome : ExecOutcome) :
    Except String String × AgentInstance :=
  let a := { a with status := AgentStatus.processing }
  match outcome with
  | .success r =>
    let a := a.updateEfficiency true
    let a := { a with taskHistory := a.taskHistory ++ [task],
                      status := AgentStatus.active }
    (Except.ok r, a)
  | .failure e =>
    let a := a.updateEfficiency false
    let a := { a with status := AgentStatus.error }
    (Except.error e, a)

/-- Write back a mutated agent instance into the registry (the TS code
mutates the instance held in the `activeAgents` map in place). -/
def replaceAgent (agents : List AgentInstance) (a : AgentInstance) :
    List AgentInstance :=
  agents.map fun b => if b.id == a.id then a else b

/-- `processTask(task)` (lines 148-176): look the bound agent up in
`activeAgents` (`get(task.assignedAgent!)`; an unbound task looks up
`undefined` and finds nothing) — when absent, log and return with nothing
changed.  Otherwise mark the task in-progress and execute it: on success
the task completes with its result and the result is persisted via
`storeKnowledge('task_results', task.id, result, agent.id, 0.9)`; on
failure the task fails with the error.  Returns the updated registry,
knowledge state and task. -/
def processTask (agents : List AgentInstance) (db : KnowledgeDB) (task : Task)
    (outcome : ExecOutcome) (backend : BackendWrite) (now : Nat) :
    List AgentInstance × KnowledgeDB × Task :=
  match task.assignedAgent.bind (fun aid => agents.find? fun a => a.id == aid) with
  | none => (agents, db, task)
  | some agent =>
    let task := { task with status := TaskStatus.inProgress }
    match executeTask agent task outcome with
    | (Except.ok r, agent') =>
      let task := { task with status := TaskStatus.completed, result := some r }
      let db' := (storeKnowledge db backend "task_results" task.id r
        (some agent'.id) (9/10) now).2
      (replaceAgent agents agent', db', task)
    | (Except.error e, agent') =>
      let task := { task with status := TaskStatus.failed, errMsg := some e }
      (replaceAgent agents agent', db, task)

/-! ## Workflow engine -/

/-- A workflow definition as stored in `setupWorkflows`: the declared step
list and the step → prerequisites map. -/
structure Workflow where
  steps : List String
  dependencies : List (String × List String)
deriving DecidableEq, Repr

/-- `workflow.dependencies[step] || []`. -/
def depsOf (w : Workflow) (step : String) : List String :=
  ((w.dependencies.find? fun p => p.1 == step).map (·.2)).getD []

/-- The task built by `delegateWorkflowTask(step, parameters)`
(lines 501-517): id `workflow-$\x7bstep\x7d-$\x7bDate.now()\x7d`, type the
step name, priority `medium`, status `pending`, and no `assignedAgent`. -/
def workflowTask (step : String) (parameters : String) (now : Nat) : Task :=
  { id := "workflow-" ++ step ++ "-" ++ toString now, type := step,
    parameters := parameters, priority := "medium", createdAt := now,
    status := .pending }

/-- The step loop of `executeWorkflow` (lines 486-496): walk the remaining
steps in declaration order; a step is delegated exactly when each declared
prerequisite already has an entry in `results`; a delegated step enqueues
its task and records `results[step] = \x7b taskId, status: 'delegated' \x7d`
(modelled as the step ↦ taskId association). -/
def executeWorkflowGo (w : Workflow) (parameters : String) (now : Nat) :
    List String → List (String × String) → TaskQueue →
    List (String × String) × TaskQueue
  | [], results, q => (results, q)
  | step :: rest, results, q =>
    let deps := depsOf w step
    let canExecute := deps.all fun d => results.any fun p => p.1 == d
    if canExecute then
      let task := workflowTask step parameters now
      executeWorkflowGo w parameters now rest (results ++ [(step, task.id)]) (q.enqueue task)
    else
      executeWorkflowGo w parameters now rest results q

/-- `executeWorkflow(workflowName, parameters)` (lines 478-499) after the
workflow lookup succeeded: run the step loop over the declared steps with
an empty result record, returning the per-step delegation record and the
queue. -/
def executeWorkflow (w : Workflow) (parameters : String) (now : Nat)
    (q : TaskQueue) : List (String × String) × TaskQueue :=
  executeWorkflowGo w parameters now w.steps [] q

/-! ## Property vocabulary and concrete sample inputs -/

/-- A per-step delegation record is well gated when every entry's declared
prerequisites all occur among the steps delegated strictly before it
(`seen` carries the steps delegated so far). -/
def WellGated (w : Workflow) : List String → List (String × String) → Prop
  | _, [] => True
  | seen, (step, _) :: rest =>
    (∀ d ∈ depsOf w step, d ∈ seen) ∧ WellGated w (seen ++ [step]) rest

/-- The fields of an agent instance that `findBestAgent` can observe:
identity, capability set, lifecycle status, efficiency score.  Display
name, type tag, specialization, declared priority and task history may
differ. -/
def SameDispatchFields (a b : AgentInstance) : Prop :=
  a.id = b.id ∧ a.capabilities = b.capabilities ∧ a.status = b.status
    ∧ a.efficiencyScore = b.efficiencyScore

/-- A minimal pending task used by concrete witnesses. -/
def mkTask (id priority : String) : Task :=
  { id := id, type := "t", parameters := "", priority := priority,
    createdAt := 0, status := .pending }

/-- A sample enqueue interleaving across the four priority classes. -/
def sampleTasks : List Task :=
  [mkTask "t1" "low", mkTask "t2" "critical", mkTask "t3" "medium",
   mkTask "t4" "critical", mkTask "t5" "high", mkTask "t6" "low"]

/-- A registered worker parked in the `idle` lifecycle state whose
capability list matches pattern-recognition tasks. -/
def sampleIdleAgent : AgentInstance :=
  { id := "w1", name := "Worker One", type := "educational-support",
    capabilities := ["pattern-recognition"], specialization := "autism-support",
    priority := "high", status := .idle }

/-- An active worker whose only capability is lesson planning. -/
def sampleActiveAgent : AgentInstance :=
  { id := "w2", name := "Worker Two", type := "educational-coordination",
    capabilities := ["lesson-planning"], specialization := "neurodiverse-learning",
    priority := "critical", status := .active }

/-- `sampleActiveAgent` after mutable non-dispatch state changed: renamed
and with one task in its history, but the same id, capabilities, status
and efficiency score. -/
def sampleActiveAgentLater : AgentInstance :=
  { sampleActiveAgent with name := "Renamed", taskHistory := [mkTask "old" "low"] }

/-- A stored knowledge entry whose key matches the query `"alpha"`. -/
def sampleEntry : KnowledgeEntry :=
  { id := "cat:alpha-key", category := "cat", key := "alpha-key", value := "v",
    confidence_score := 1/2, source_agent := "system", created_at := 0,
    updated_at := 0, access_count := 0, tags := [], relationships := [] }

/-- A knowledge-store state holding only `sampleEntry`, with an empty
access log. -/
def sampleDB : KnowledgeDB :=
  { localKnowledge := [("cat:alpha-key", sampleEntry)], accessLog := [] }

/-! ## Theorems -/

/-- Enough dequeue calls return the four lanes in lane order, each lane in
FIFO order. -/
lemma drainFuel_eq (n : ℕ) : ∀ q : TaskQueue, q.size ≤ n →
    TaskQueue.drainFuel n q = q.critical ++ q.high ++ q.medium ++ q.low := by
  induction n with
  | zero =>
    rintro ⟨qc, qh, qm, ql⟩ h
    simp only [TaskQueue.size] at h
    have hc : qc = [] := List.length_eq_zero.mp (by omega)
    have hh : qh = [] := List.length_eq_zero.mp (by omega)
    have hm : qm = [] := List.length_eq_zero.mp (by omega)
    have hl : ql = [] := List.length_eq_zero.mp (by omega)
    subst hc; subst hh; subst hm; subst hl
    simp [TaskQueue.drainFuel]
  | succ n ih =>
    rintro ⟨qc, qh, qm, ql⟩ h
    cases qc with
    | cons t ts =>
      have hrec := ih ⟨ts, qh, qm, ql⟩ (by simp only [TaskQueue.size] at h ⊢; simp at h ⊢; omega)
      simp [TaskQueue.drainFuel, TaskQueue.dequeue, hrec]
    | nil =>
      cases qh with
      | cons t ts =>
        have hrec := ih ⟨[], ts, qm, ql⟩ (by simp only [TaskQueue.size] at h ⊢; simp at h ⊢; omega)
        simp [TaskQueue.drainFuel, TaskQueue.dequeue, hrec]
      | nil =>
        cases qm with
        | cons t ts =>
          have hrec := ih ⟨[], [], ts, ql⟩ (by simp only [TaskQueue.size] at h ⊢; simp at h ⊢; omega)
          simp [TaskQueue.drainFuel, TaskQueue.dequeue, hrec]
        | nil =>
          cases ql with
          | cons t ts =>
            have hrec := ih ⟨[], [], [], ts⟩ (by simp only [TaskQueue.size] at h ⊢; simp at h ⊢; omega)
            simp [TaskQueue.drainFuel, TaskQueue.dequeue, hrec]
          | nil => simp [TaskQueue.drainFuel, TaskQueue.dequeue]

/-- Folding `enqueue` over a task list appends each task to the lane
`laneOf` names, in arrival order. -/
lemma foldl_enqueue_lanes (ts : List Task) : ∀ q : TaskQueue,
    ts.foldl TaskQueue.enqueue q =
      ⟨q.critical ++ ts.filter (fun t => laneOf t == "critical"),
       q.high ++ ts.filter (fun t => laneOf t == "high"),
       q.medium ++ ts.filter (fun t => laneOf t == "medium"),
       q.low ++ ts.filter (fun t => laneOf t == "low")⟩ := by
  induction ts with
  | nil => rintro ⟨qc, qh, qm, ql⟩; simp
  | cons t rest ih =>
    rintro ⟨qc, qh, qm, ql⟩
    simp only [List.foldl_cons]
    rw [ih]
    unfold TaskQueue.enqueue
    split_ifs with h1 h2 h3 h4 <;>
      simp_all [List.filter_cons, laneOf, List.append_assoc]

/-- C1: for every interleaving of enqueues across the four priority
classes, repeated `dequeue()` calls return all critical tasks before any
high task, all high before any medium, all medium before any low, and
within each class tasks come back in enqueue (FIFO) order: draining the
queue yields exactly the four priority classes concatenated in order, each
in arrival order. -/
theorem taskQueue_priority_fifo (ts : List Task)
    (h : ∀ t ∈ ts, t.priority = "critical" ∨ t.priority = "high"
          ∨ t.priority = "medium" ∨ t.priority = "low") :
    TaskQueue.drain (ts.foldl TaskQueue.enqueue TaskQueue.empty)
      = ts.filter (fun t => t.priority == "critical")
        ++ ts.filter (fun t => t.priority == "high")
        ++ ts.filter (fun t => t.priority == "medium")
        ++ ts.filter (fun t => t.priority == "low") := by
  have hl : ∀ t ∈ ts, laneOf t = t.priority := by
    intro t ht
    rcases h t ht with h' | h' | h' | h' <;> simp [laneOf, h']
  have hfil : ∀ lane : String,
      ts.filter (fun t => laneOf t == lane) = ts.filter (fun t => t.priority == lane) := by
    intro lane
    refine List.filter_congr ?_
    intro t ht
    rw [hl t ht]
  rw [TaskQueue.drain, drainFuel_eq _ _ le_rfl, foldl_enqueue_lanes]
  simp only [TaskQueue.empty, List.nil_append]
  rw [hfil "critical", hfil "high", hfil "medium", hfil "low"]

/-- C1 witness: a concrete interleaving (low, critical, medium, critical,
high, low) drains as its four priority classes in order, FIFO within each. -/
theorem taskQueue_priority_fifo_witness :
    TaskQueue.drain (sampleTasks.foldl TaskQueue.enqueue TaskQueue.empty)
      = sampleTasks.filter (fun t => t.priority == "critical")
        ++ sampleTasks.filter (fun t => t.priority == "high")
        ++ sampleTasks.filter (fun t => t.priority == "medium")
        ++ sampleTasks.filter (fun t => t.priority == "low") :=
  taskQueue_priority_fifo sampleTasks (by decide)

/-- C3: for every finite sequence of task-execution successes and failures,
the efficiency score — starting from its initial value 1.0, each success
adding the fixed increment and each failure subtracting the fixed
decrement, with clamping — stays within [0.1, 1.0] inclusive. -/
theorem efficiency_score_bounds (outcomes : List Bool) :
    1/10 ≤ efficiencyAfter outcomes ∧ efficiencyAfter outcomes ≤ 1 := by
  have key : ∀ (l : List Bool) (e : ℚ), 1/10 ≤ e → e ≤ 1 →
      1/10 ≤ l.foldl updateEfficiencyScore e ∧ l.foldl updateEfficiencyScore e ≤ 1 := by
    intro l
    induction l with
    | nil => intro e h1 h2; simp only [List.foldl]; exact ⟨h1, h2⟩
    | cons b bs ih =>
      intro e h1 h2
      apply ih
      · unfold updateEfficiencyScore
        split
        · exact le_min (by norm_num) (by linarith)
        · exact le_max_left _ _
      · unfold updateEfficiencyScore
        split
        · exact min_le_left _ _
        · exact max_le (by norm_num) (by linarith)
  exact key outcomes 1 (by norm_num) (by norm_num)

/-- C2: when no registered worker has a capability substring-matching the
task type (in either direction), `delegateTask` throws the
no-capable-worker error and the system state — in particular the queue and
its size — is unchanged: the task is never enqueued. -/
theorem delegateTask_no_capable_worker_error (s : RealTimeAgentSystem)
    (freshId : String) (now : Nat) (taskType parameters priority : String)
    (h : ∀ a ∈ s.activeAgents, a.canHandle taskType = false) :
    (delegateTask s freshId now taskType parameters priority).1
        = Except.error ("No suitable agent found for task type: " ++ taskType)
      ∧ (delegateTask s freshId now taskType parameters priority).2 = s
      ∧ (delegateTask s freshId now taskType parameters priority).2.taskQueue.size
          = s.taskQueue.size := by
  have hf : s.activeAgents.filter (fun a => a.canHandle taskType) = [] := by
    refine List.filter_eq_nil_iff.mpr ?_
    intro a ha
    simp [h a ha]
  refine ⟨?_, ?_, ?_⟩ <;> simp [delegateTask, findBestAgent, hf, sortByEffDesc]

/-- C2 witness: a single registered worker whose only capability
`lesson-planning` does not substring-match `unknown-type`; delegation
fails with the error and the state is unchanged. -/
theorem delegateTask_no_capable_worker_error_witness :
    (delegateTask ⟨[sampleActiveAgent], TaskQueue.empty⟩ "task-1" 0
        "unknown-type" "" "low").1
        = Except.error ("No suitable agent found for task type: " ++ "unknown-type")
      ∧ (delegateTask ⟨[sampleActiveAgent], TaskQueue.empty⟩ "task-1" 0
          "unknown-type" "" "low").2 = ⟨[sampleActiveAgent], TaskQueue.empty⟩
      ∧ (delegateTask ⟨[sampleActiveAgent], TaskQueue.empty⟩ "task-1" 0
          "unknown-type" "" "low").2.taskQueue.size
          = (TaskQueue.empty : TaskQueue).size :=
  delegateTask_no_capable_worker_error ⟨[sampleActiveAgent], TaskQueue.empty⟩
    "task-1" 0 "unknown-type" "" "low" (by decide)

/-- C9: every task the Workflow Engine's `delegateWorkflowTask` builds has
no `assignedAgent` bound, and when the ticker hands such a task to
`processTask` it returns early: registry, knowledge state and the task
itself (status still `pending`, no result, no handler run) are unchanged. -/
theorem workflow_task_unbound_skipped (step parameters : String) (now : Nat)
    (agents : List AgentInstance) (db : KnowledgeDB) (outcome : ExecOutcome)
    (backend : BackendWrite) (tick : Nat) :
    (workflowTask step parameters now).assignedAgent = none
      ∧ processTask agents db (workflowTask step parameters now) outcome backend tick
          = (agents, db, workflowTask step parameters now)
      ∧ (workflowTask step parameters now).status = TaskStatus.pending := by
  refine ⟨rfl, ?_, rfl⟩
  simp [processTask, workflowTask]

/-- C10: a `(category, key)` pair present in neither the primary backend
nor the local store makes `retrieveKnowledge` return `null` with the whole
store state unchanged — in particular no access-log entry is appended and
no access counter is incremented. -/
theorem retrieveKnowledge_miss_unlogged (db : KnowledgeDB) (primary : PrimaryRead)
    (category key : String) (agent : Option String) (now : Nat)
    (hp : primary = PrimaryRead.absent ∨ primary = PrimaryRead.errored
            ∨ primary = PrimaryRead.missing)
    (hl : mapGet db.localKnowledge (category ++ ":" ++ key) = none) :
    retrieveKnowledge db primary category key agent now = (none, db) := by
  rcases hp with hp | hp | hp <;> subst hp <;> simp [retrieveKnowledge, hl]

/-- C10 witness: an empty store misses `(cat, k)`; the call returns `null`
and the state is unchanged. -/
theorem retrieveKnowledge_miss_unlogged_witness :
    retrieveKnowledge ⟨[], []⟩ PrimaryRead.missing "cat" "k" none 0
      = (none, (⟨[], []⟩ : KnowledgeDB)) :=
  retrieveKnowledge_miss_unlogged ⟨[], []⟩ PrimaryRead.missing "cat" "k" none 0
    (Or.inr (Or.inr rfl)) rfl

/-- C4 counterexample: a worker parked in the `idle` lifecycle state with a
matching capability is selected and bound: `delegateTask` succeeds and the
enqueued task carries the idle worker's id, contradicting the claim that
idle workers are excluded from the candidate set. -/
theorem delegateTask_binds_idle_worker :
    sampleIdleAgent.status = AgentStatus.idle
      ∧ sampleIdleAgent.canHandle "pattern-recognition" = true
      ∧ (delegateTask ⟨[sampleIdleAgent], TaskQueue.empty⟩ "task-1" 0
          "pattern-recognition" "" "low").1 = Except.ok "task-1"
      ∧ (delegateTask ⟨[sampleIdleAgent], TaskQueue.empty⟩ "task-1" 0
          "pattern-recognition" "" "low").2.taskQueue.low
          = [{ id := "task-1", type := "pattern-recognition", parameters := "",
               priority := "low", createdAt := 0, status := .pending,
               assignedAgent := some "w1" }] := by
  refine ⟨rfl, by decide, rfl, by decide⟩

/-- Changing only the lifecycle status leaves `canHandle` unchanged. -/
lemma canHandle_setStatus (a : AgentInstance) (st : AgentStatus) (taskType : String) :
    AgentInstance.canHandle { a with status := st } taskType = a.canHandle taskType :=
  rfl

/-- `canHandle`-filtering commutes with a status-only update of every
agent. -/
lemma filter_canHandle_setStatus (f : AgentInstance → AgentStatus) (taskType : String) :
    ∀ l : List AgentInstance,
      (l.map fun a => { a with status := f a }).filter (fun a => a.canHandle taskType)
        = (l.filter fun a => a.canHandle taskType).map fun a => { a with status := f a } := by
  intro l
  induction l with
  | nil => rfl
  | cons a rest ih =>
    simp only [List.map_cons, List.filter_cons, canHandle_setStatus]
    by_cases hc : a.canHandle taskType = true
    · simp only [hc, if_pos, List.map_cons, ih]
    · simp only [Bool.not_eq_true] at hc
      simp only [hc, Bool.false_eq_true, if_neg, ih, List.map_cons]
      simp

/-- Ranking insertion commutes with a status-only update (the comparator
reads only the efficiency score, which the update preserves). -/
lemma insertByEff_setStatus (f : AgentInstance → AgentStatus) (a : AgentInstance) :
    ∀ l : List AgentInstance,
      insertByEff { a with status := f a } (l.map fun b => { b with status := f b })
        = (insertByEff a l).map fun b => { b with status := f b } := by
  intro l
  induction l with
  | nil => rfl
  | cons b rest ih =>
    simp only [List.map_cons, insertByEff]
    by_cases hc : a.efficiencyScore < b.efficiencyScore
    · simp only [if_pos hc, List.map_cons, ih]
    · simp only [if_neg hc, List.map_cons]

/-- The candidate ranking commutes with a status-only update. -/
lemma sortByEffDesc_setStatus (f : AgentInstance → AgentStatus) :
    ∀ l : List AgentInstance,
      sortByEffDesc (l.map fun b => { b with status := f b })
        = (sortByEffDesc l).map fun b => { b with status := f b } := by
  intro l
  induction l with
  | nil => rfl
  | cons a rest ih =>
    simp only [List.map_cons, sortByEffDesc, ih, insertByEff_setStatus]

/-- C4 amended: candidate selection never reads the lifecycle status —
reassigning every worker's status arbitrarily (to `idle` or anything else)
leaves the selected worker unchanged, so `delegateTask` excludes no status
from the candidate set (and, per the counterexample, does bind tasks to
`idle` workers; `standby` is not even a representable status). -/
theorem findBestAgent_ignores_status (agents : List AgentInstance)
    (f : AgentInstance → AgentStatus) (taskType : String) :
    findBestAgent (agents.map fun a => { a with status := f a }) taskType
      = (findBestAgent agents taskType).map fun a => { a with status := f a } := by
  unfold findBestAgent
  rw [filter_canHandle_setStatus, sortByEffDesc_setStatus, List.head?_map]

/-- C5 counterexample: the primary backend's search *succeeds* with zero
rows, yet the local store is consulted and its matching entry is returned —
contradicting the claim that the local store is consulted only when the
primary search errors or the backend is unavailable (under the claim the
successful primary result `[]` would be returned as-is). -/
theorem queryKnowledge_local_after_empty_primary_success :
    (queryKnowledge sampleDB (PrimarySearch.ok []) "alpha" none 0).1 = [sampleEntry] := by
  rfl

/-- C5 amended: the local fallback is consulted exactly when the primary
search contributed zero rows — because it errored, because the backend is
absent, or because it succeeded with an empty result; whenever the primary
search succeeds with at least one row, those rows are returned as-is
(already confidence-ordered by the backend query) capped at 10. -/
theorem queryKnowledge_fallback_on_no_primary_rows (db : KnowledgeDB)
    (query : String) (agent : Option String) (now : Nat) :
    (∀ rows : List KnowledgeEntry, rows ≠ [] →
        (queryKnowledge db (PrimarySearch.ok rows) query agent now).1 = rows.take 10)
      ∧ (∀ primary : PrimarySearch,
          primary = PrimarySearch.errored ∨ primary = PrimarySearch.absent
            ∨ primary = PrimarySearch.ok [] →
          (queryKnowledge db primary query agent now).1
            = (sortByConfDesc
                ((db.localKnowledge.map (·.2)).filter (localQueryMatch query))).take 10) := by
  constructor
  · intro rows hr
    simp [queryKnowledge, hr]
  · rintro primary (hp | hp | hp) <;> subst hp <;> simp [queryKnowledge]

/-- C5 amended witness: with the sample store, a primary success with one
row returns that row as-is, and a primary error falls back to the sorted
local matches. -/
theorem queryKnowledge_fallback_on_no_primary_rows_witness :
    (queryKnowledge sampleDB (PrimarySearch.ok [sampleEntry]) "alpha" none 0).1
        = [sampleEntry].take 10
      ∧ (queryKnowledge sampleDB PrimarySearch.errored "alpha" none 0).1
        = (sortByConfDesc
            ((sampleDB.localKnowledge.map (·.2)).filter (localQueryMatch "alpha"))).take 10 :=
  ⟨(queryKnowledge_fallback_on_no_primary_rows sampleDB "alpha" none 0).1
      [sampleEntry] (by decide),
   (queryKnowledge_fallback_on_no_primary_rows sampleDB "alpha" none 0).2
      PrimarySearch.errored (Or.inl rfl)⟩

/-- C6 counterexample: with steps `[A, B]` and the dependency `B ← A` both
steps are delegated, but with declaration order `[B, A]` and the same
dependency map the single pass checks `B` before `A` has been delegated and
skips it for good — the per-step delegation outcome differs, contradicting
the claim that reversing declaration order produces the same gating
result. -/
theorem executeWorkflow_order_reversal_changes_result :
    (executeWorkflow ⟨["A", "B"], [("B", ["A"])]⟩ "" 0 TaskQueue.empty).1
        = [("A", "workflow-A-0"), ("B", "workflow-B-0")]
      ∧ (executeWorkflow ⟨["B", "A"], [("B", ["A"])]⟩ "" 0 TaskQueue.empty).1
        = [("A", "workflow-A-0")] := by
  exact ⟨rfl, rfl⟩

/-- The step loop only appends delegation records whose prerequisites were
already delegated (either in the accumulated record or earlier in the new
suffix). -/
lemma executeWorkflowGo_gated (w : Workflow) (parameters : String) (now : Nat) :
    ∀ (steps : List String) (results : List (String × String)) (q : TaskQueue),
      ∃ new, (executeWorkflowGo w parameters now steps results q).1 = results ++ new
        ∧ WellGated w (results.map (·.1)) new := by
  intro steps
  induction steps with
  | nil =>
    intro results q
    exact ⟨[], by simp [executeWorkflowGo], trivial⟩
  | cons step rest ih =>
    intro results q
    simp only [executeWorkflowGo]
    by_cases hc : (depsOf w step).all (fun d => results.any fun p => p.1 == d) = true
    · rw [if_pos hc]
      obtain ⟨new, hnew, hg⟩ :=
        ih (results ++ [(step, (workflowTask step parameters now).id)])
          (q.enqueue (workflowTask step parameters now))
      refine ⟨(step, (workflowTask step parameters now).id) :: new, ?_, ?_⟩
      · rw [hnew]; simp
      · refine ⟨?_, ?_⟩
        · intro d hd
          obtain ⟨p, hp, hpd⟩ := List.any_eq_true.mp (List.all_eq_true.mp hc d hd)
          have hpd' : p.1 = d := by simpa using hpd
          exact hpd' ▸ List.mem_map_of_mem _ hp
        · simpa using hg
    · rw [if_neg hc]
      exact ih results q

/-- C6 amended: the engine walks the declared steps once, in declaration
order, delegating a step only when every declared prerequisite has already
been delegated earlier in the run — so `[A, B]` with `B ← A` delegates `A`
then `B`, while the reversed declaration `[B, A]` skips `B` entirely
(there is no second pass), and the gating result is NOT the same. -/
theorem executeWorkflow_gating (w : Workflow) (parameters : String) (now : Nat)
    (q : TaskQueue) :
    WellGated w [] (executeWorkflow w parameters now q).1
      ∧ (executeWorkflow ⟨["A", "B"], [("B", ["A"])]⟩ "" 0 TaskQueue.empty).1
          = [("A", "workflow-A-0"), ("B", "workflow-B-0")]
      ∧ (executeWorkflow ⟨["B", "A"], [("B", ["A"])]⟩ "" 0 TaskQueue.empty).1
          = [("A", "workflow-A-0")] := by
  refine ⟨?_, rfl, rfl⟩
  obtain ⟨new, hnew, hg⟩ := executeWorkflowGo_gated w parameters now w.steps [] q
  unfold executeWorkflow
  rw [hnew]
  simpa using hg

/-- After `Map.set`, looking the key up returns the just-stored value. -/
lemma mapGet_mapSet_self (k : String) (v : KnowledgeEntry) :
    ∀ m : List (String × KnowledgeEntry), mapGet (mapSet m k v) k = some v := by
  intro m
  induction m with
  | nil => simp [mapGet, mapSet]
  | cons p rest ih =>
    unfold mapSet
    by_cases hpk : (p.1 == k) = true
    · rw [if_pos hpk]
      simp [mapGet, List.find?]
    · rw [if_neg hpk]
      unfold mapGet at ih ⊢
      simp only [List.find?, hpk] at ih ⊢
      exact ih

/-- C7: when the ticker processes a task whose bound agent is registered
and whose execution succeeds, the task ends `completed` with its result
attached, and (with the primary backend absent or failing, so the write
lands in the modelled local store) a knowledge entry is stored under
category `task_results`, keyed by the task's id, with the fixed confidence
0.9 and the task's result as value. -/
theorem processTask_success_completes_and_stores
    (agents : List AgentInstance) (db : KnowledgeDB) (task : Task) (r : String)
    (backend : BackendWrite) (now : Nat) (aid : String) (agent : AgentInstance)
    (h1 : task.assignedAgent = some aid)
    (h2 : agents.find? (fun a => a.id == aid) = some agent)
    (hb : backend ≠ BackendWrite.ok) :
    (processTask agents db task (ExecOutcome.success r) backend now).2.2.status
        = TaskStatus.completed
      ∧ (processTask agents db task (ExecOutcome.success r) backend now).2.2.result
        = some r
      ∧ ∃ e : KnowledgeEntry,
          mapGet (processTask agents db task (ExecOutcome.success r) backend now).2.1.localKnowledge
              ("task_results" ++ ":" ++ task.id) = some e
            ∧ e.category = "task_results" ∧ e.key = task.id
            ∧ e.confidence_score = 9/10 ∧ e.value = r := by
  have hbind : (task.assignedAgent.bind fun aid => agents.find? fun a => a.id == aid)
      = some agent := by
    rw [h1]
    exact h2
  unfold processTask
  rw [hbind]
  cases backend with
  | ok => exact absurd rfl hb
  | failed => exact ⟨rfl, rfl, _, mapGet_mapSet_self _ _ _, rfl, rfl, rfl, rfl⟩
  | absent => exact ⟨rfl, rfl, _, mapGet_mapSet_self _ _ _, rfl, rfl, rfl, rfl⟩

/-- C7 witness: a pending task bound to the registered worker `w2`
executes successfully in local-only mode; it completes with its result and
the `task_results:t9` entry holds the result at confidence 0.9. -/
theorem processTask_success_completes_and_stores_witness :
    (processTask [sampleActiveAgent] ⟨[], []⟩
          { id := "t9", type := "x", parameters := "", priority := "medium",
            createdAt := 0, status := .pending, assignedAgent := some "w2" }
          (ExecOutcome.success "res") BackendWrite.absent 0).2.2.status
        = TaskStatus.completed
      ∧ (processTask [sampleActiveAgent] ⟨[], []⟩
          { id := "t9", type := "x", parameters := "", priority := "medium",
            createdAt := 0, status := .pending, assignedAgent := some "w2" }
          (ExecOutcome.success "res") BackendWrite.absent 0).2.2.result = some "res"
      ∧ ∃ e : KnowledgeEntry,
          mapGet (processTask [sampleActiveAgent] ⟨[], []⟩
              { id := "t9", type := "x", parameters := "", priority := "medium",
                createdAt := 0, status := .pending, assignedAgent := some "w2" }
              (ExecOutcome.success "res") BackendWrite.absent 0).2.1.localKnowledge
              ("task_results" ++ ":" ++ "t9") = some e
            ∧ e.category = "task_results" ∧ e.key = "t9"
            ∧ e.confidence_score = 9/10 ∧ e.value = "res" :=
  processTask_success_completes_and_stores [sampleActiveAgent] ⟨[], []⟩
    { id := "t9", type := "x", parameters := "", priority := "medium",
      createdAt := 0, status := .pending, assignedAgent := some "w2" }
    "res" BackendWrite.absent 0 "w2" sampleActiveAgent rfl (by rfl) (by decide)

/-- Two agents with the same capabilities can handle the same task types. -/
lemma canHandle_eq_of_same (a b : AgentInstance) (h : SameDispatchFields a b)
    (taskType : String) : a.canHandle taskType = b.canHandle taskType := by
  unfold AgentInstance.canHandle
  rw [h.2.1]

/-- `canHandle`-filtering preserves pointwise agreement on the
dispatch-relevant fields. -/
lemma forall2_filter_canHandle (taskType : String) :
    ∀ l1 l2 : List AgentInstance, List.Forall₂ SameDispatchFields l1 l2 →
      List.Forall₂ SameDispatchFields
        (l1.filter fun a => a.canHandle taskType)
        (l2.filter fun a => a.canHandle taskType) := by
  intro l1 l2 h
  induction h with
  | nil => exact List.Forall₂.nil
  | @cons a b t1 t2 hab _ ih =>
    simp only [List.filter_cons, canHandle_eq_of_same a b hab taskType]
    by_cases hc : b.canHandle taskType = true
    · simp only [hc, if_pos]
      exact List.Forall₂.cons hab ih
    · simp only [Bool.not_eq_true] at hc
      simp only [hc, Bool.false_eq_true, if_neg]
      exact ih

/-- Ranking insertion preserves pointwise agreement (the comparator reads
only efficiency scores, on which related agents agree). -/
lemma forall2_insertByEff (a b : AgentInstance) (hab : SameDispatchFields a b) :
    ∀ l1 l2 : List AgentInstance, List.Forall₂ SameDispatchFields l1 l2 →
      List.Forall₂ SameDispatchFields (insertByEff a l1) (insertByEff b l2) := by
  intro l1 l2 h
  induction h with
  | nil => exact List.Forall₂.cons hab List.Forall₂.nil
  | @cons c d t1 t2 hcd hrest ih =>
    simp only [insertByEff]
    have heq : (a.efficiencyScore < c.efficiencyScore)
        ↔ (b.efficiencyScore < d.efficiencyScore) := by
      rw [hab.2.2.2, hcd.2.2.2]
    by_cases hc : a.efficiencyScore < c.efficiencyScore
    · rw [if_pos hc, if_pos (heq.mp hc)]
      exact List.Forall₂.cons hcd ih
    · rw [if_neg hc, if_neg fun hd => hc (heq.mpr hd)]
      exact List.Forall₂.cons hab (List.Forall₂.cons hcd hrest)

/-- The candidate ranking preserves pointwise agreement on the
dispatch-relevant fields. -/
lemma forall2_sortByEffDesc :
    ∀ l1 l2 : List AgentInstance, List.Forall₂ SameDispatchFields l1 l2 →
      List.Forall₂ SameDispatchFields (sortByEffDesc l1) (sortByEffDesc l2) := by
  intro l1 l2 h
  induction h with
  | nil => exact List.Forall₂.nil
  | @cons a b t1 t2 hab _ ih =>
    simp only [sortByEffDesc]
    exact forall2_insertByEff a b hab _ _ ih

/-- C8: worker selection is deterministic — it depends only on the
registered workers' ids, capability lists, statuses and efficiency scores,
in registration order.  Two registry states agreeing on those fields (other
mutable state such as the task history or display data may differ, as long
as no efficiency score changed) make `findBestAgent` select the same
worker for the same task type. -/
theorem findBestAgent_deterministic (l1 l2 : List AgentInstance) (taskType : String)
    (h : List.Forall₂ SameDispatchFields l1 l2) :
    (findBestAgent l1 taskType).map (·.id) = (findBestAgent l2 taskType).map (·.id) := by
  unfold findBestAgent
  have hs := forall2_sortByEffDesc _ _ (forall2_filter_canHandle taskType _ _ h)
  revert hs
  generalize sortByEffDesc (l1.filter fun a => a.canHandle taskType) = s1
  generalize sortByEffDesc (l2.filter fun a => a.canHandle taskType) = s2
  intro hs
  cases hs with
  | nil => rfl
  | cons hab _ => simpa using hab.1

/-- C8 witness: the same worker under two registry snapshots that differ
only in display name and task history is selected both times. -/
theorem findBestAgent_deterministic_witness :
    (findBestAgent [sampleActiveAgent] "lesson-planning").map (·.id)
      = (findBestAgent [sampleActiveAgentLater] "lesson-planning").map (·.id) :=
  findBestAgent_deterministic [sampleActiveAgent] [sampleActiveAgentLater]
    "lesson-planning"
    (List.Forall₂.cons ⟨rfl, rfl, rfl, rfl⟩ List.Forall₂.nil)

end AgentricAI
